import Mathlib

/-!
Shallow embedding of the price-alert core of the indirimradar backend
(`src/app.py`): the data model (Product, PriceHistory, PriceAlert), the
admin product-creation and product-update handlers (including the alert
firing rule), and the user alert creation/deletion handlers.

Prices are Python floats in the source; they are modelled as exact
rationals (`Rat`), so `==`, `!=` and `<=` on prices are the exact
comparisons the source performs.  Timestamps (`datetime.utcnow()`) are
modelled as natural numbers passed in as a `now` parameter.  The
database session is modelled as an explicit `DB` state; `db.session.add`
followed by `commit` becomes appending to the corresponding list, and
SQLAlchemy's autoincrement primary keys become explicit counters.
-/

/-- Mirrors the `Product` model (src/app.py lines 53-66). -/
structure Product where
  id : Nat
  title : String
  platform : String
  category : String
  current_price : Rat
  original_price : Rat
  discount_percent : Int
  image_url : String
  product_url : String
  real_deal_status : String
  created_at : Nat
  updated_at : Nat
deriving DecidableEq, Repr

/-- Mirrors the `PriceHistory` model (src/app.py lines 68-72). -/
structure PriceHistory where
  id : Nat
  product_id : Nat
  price : Rat
  recorded_at : Nat
deriving DecidableEq, Repr

/-- Mirrors the `PriceAlert` model (src/app.py lines 80-86); `is_active`
defaults to `True` in the source. -/
structure PriceAlert where
  id : Nat
  user_id : Nat
  product_id : Nat
  target_price : Rat
  is_active : Bool
  created_at : Nat
deriving DecidableEq, Repr

/-- The database state threaded through the handlers: the three tables the
claims concern, plus the autoincrement counters for their primary keys. -/
structure DB where
  products : List Product
  history : List PriceHistory
  alerts : List PriceAlert
  next_product_id : Nat
  next_history_id : Nat
  next_alert_id : Nat
deriving DecidableEq, Repr

/-- A fresh database (SQLAlchemy autoincrement starts at 1). -/
def DB.empty : DB :=
  { products := [], history := [], alerts := [],
    next_product_id := 1, next_history_id := 1, next_alert_id := 1 }

/-- HTTP error outcomes of the handlers: `notFound` models
`get_or_404` / the 404 response, `badRequest` models a 400 response. -/
inductive ApiError where
  | notFound
  | badRequest
deriving DecidableEq, Repr

/-- The JSON body of a PUT `/api/admin/products/<id>` request: the three
keys `admin_update_product` looks at, each optional (`if key in data`). -/
structure UpdateData where
  title : Option String
  current_price : Option Rat
  real_deal_status : Option String
deriving DecidableEq, Repr

/-- The JSON body of a POST `/api/admin/products` request: the fields
`admin_create_product` reads, `real_deal_status` optional with default
`"normal"` (`data.get(..., 'normal')`), the rest required. -/
structure CreateData where
  title : String
  platform : String
  category : String
  current_price : Rat
  original_price : Rat
  discount_percent : Int
  image_url : String
  product_url : String
  real_deal_status : Option String
deriving DecidableEq, Repr

/-- The JSON body of a POST `/api/alerts` request (`data.get` on the two
keys, so each may be absent). -/
structure AlertData where
  product_id : Option Nat
  target_price : Option Rat
deriving DecidableEq, Repr

/-- The data carried by the `print` on src/app.py line 443: the alert's
`user_id` and the product's `title` -- nothing else. -/
structure AlertPrint where
  user_id : Nat
  product_title : String
deriving DecidableEq, Repr

/-- The observable outcome of a successful `admin_update_product` call:
the committed database, the alert-trigger lines printed, and the JSON
message of the HTTP response. -/
structure UpdateResult where
  db : DB
  printed : List AlertPrint
  response : String
deriving DecidableEq, Repr

/-- The alert scan of src/app.py lines 438-441: fetch the alerts with
matching `product_id` and `is_active = True`, and keep those with
`data['current_price'] <= alert.target_price`. -/
def checkAlerts (alerts : List PriceAlert) (product_id : Nat) (newPrice : Rat) :
    List PriceAlert :=
  (alerts.filter fun a => a.product_id == product_id && a.is_active).filter
    fun a => decide (newPrice ≤ a.target_price)

/-- Lines 426-427: `if 'title' in data: product.title = data['title']`. -/
def applyTitle (data : UpdateData) (p : Product) : Product :=
  match data.title with
  | some t => { p with title := t }
  | none => p

/-- Lines 445-446: `if 'real_deal_status' in data: ...`. -/
def applyRealDeal (data : UpdateData) (p : Product) : Product :=
  match data.real_deal_status with
  | some s => { p with real_deal_status := s }
  | none => p

/-- Intermediate outcome of the `'current_price' in data` block. -/
structure PriceStepOut where
  product : Product
  history : List PriceHistory
  nextHistId : Nat
  printed : List AlertPrint
deriving DecidableEq, Repr

/-- Lines 428-443 of src/app.py: if the request carries `current_price`,
remember `old_price`, overwrite `product.current_price`, and only when the
price actually differs append a history row and run the alert scan,
printing one line per fired alert. -/
def applyPriceStep (data : UpdateData) (product_id : Nat) (now : Nat)
    (db : DB) (p : Product) : PriceStepOut :=
  match data.current_price with
  | none => ⟨p, db.history, db.next_history_id, []⟩
  | some newPrice =>
    let old_price := p.current_price
    let p2 : Product := { p with current_price := newPrice }
    if old_price = newPrice then
      ⟨p2, db.history, db.next_history_id, []⟩
    else
      let fired := checkAlerts db.alerts product_id newPrice
      ⟨p2,
       db.history ++ [⟨db.next_history_id, product_id, newPrice, now⟩],
       db.next_history_id + 1,
       fired.map fun a => ⟨a.user_id, p2.title⟩⟩

/-- The PUT `/api/admin/products/<product_id>` handler
(`admin_update_product`, src/app.py lines 420-451): 404 when the product
does not exist; otherwise apply the title, price (with history append and
alert scan when changed), and real-deal updates, stamp `updated_at = now`,
commit, and answer `'Product updated'`. -/
def admin_update_product (product_id : Nat) (data : UpdateData) (now : Nat)
    (db : DB) : Except ApiError UpdateResult :=
  match db.products.find? fun p => p.id == product_id with
  | none => .error .notFound
  | some product =>
    let step := applyPriceStep data product_id now db (applyTitle data product)
    let productF : Product := { applyRealDeal data step.product with updated_at := now }
    .ok { db := { db with
                  products := db.products.map fun p =>
                    if p.id == product_id then productF else p,
                  history := step.history,
                  next_history_id := step.nextHistId },
          printed := step.printed,
          response := "Product updated" }

/-- The POST `/api/admin/products` handler (`admin_create_product`,
src/app.py lines 394-418): insert the product, then insert one history
row carrying `data['current_price']`; returns the new product id. -/
def admin_create_product (data : CreateData) (now : Nat) (db : DB) : DB × Nat :=
  ({ db with
     products := db.products ++
       [{ id := db.next_product_id, title := data.title,
          platform := data.platform, category := data.category,
          current_price := data.current_price,
          original_price := data.original_price,
          discount_percent := data.discount_percent,
          image_url := data.image_url, product_url := data.product_url,
          real_deal_status := data.real_deal_status.getD "normal",
          created_at := now, updated_at := now }],
     next_product_id := db.next_product_id + 1,
     history := db.history ++
       [⟨db.next_history_id, db.next_product_id, data.current_price, now⟩],
     next_history_id := db.next_history_id + 1 },
   db.next_product_id)

/-- The POST `/api/alerts` handler (`create_alert`, src/app.py lines
343-362): 400 when `product_id` is absent or falsy (`not product_id`,
so `0` is also rejected) or `target_price` is absent (`is None`);
otherwise insert the alert, whose `is_active` takes the model's default
`True`. -/
def create_alert (uid : Nat) (data : AlertData) (now : Nat) (db : DB) :
    Except ApiError DB :=
  match data.product_id, data.target_price with
  | none, _ => .error .badRequest
  | some _, none => .error .badRequest
  | some pid, some target =>
    if pid = 0 then .error .badRequest
    else
      .ok { db with
            alerts := db.alerts ++
              [⟨db.next_alert_id, uid, pid, target, true, now⟩],
            next_alert_id := db.next_alert_id + 1 }

/-- The DELETE `/api/alerts/<alert_id>` handler (`delete_alert`,
src/app.py lines 364-375): look up the alert by `id` AND the requesting
user's `user_id`; 404 when absent, otherwise delete that row. -/
def delete_alert (uid : Nat) (alert_id : Nat) (db : DB) : Except ApiError DB :=
  match db.alerts.find? fun a => a.id == alert_id && a.user_id == uid with
  | none => .error .notFound
  | some _ =>
    .ok { db with
          alerts := db.alerts.eraseP fun a => a.id == alert_id && a.user_id == uid }

/-- One API call of the four operations the claims range over, tagged
with the wall-clock time at which it is served. -/
inductive Op where
  | createP (data : CreateData) (now : Nat)
  | updateP (pid : Nat) (data : UpdateData) (now : Nat)
  | createA (uid : Nat) (data : AlertData) (now : Nat)
  | deleteA (uid : Nat) (aid : Nat) (now : Nat)
deriving Repr

/-- The wall-clock time of an operation. -/
def Op.time : Op → Nat
  | .createP _ now => now
  | .updateP _ _ now => now
  | .createA _ _ now => now
  | .deleteA _ _ now => now

/-- The database after serving one call (a failed call commits nothing
and leaves the database unchanged). -/
def stepDB (op : Op) (db : DB) : DB :=
  match op with
  | .createP data now => (admin_create_product data now db).1
  | .updateP pid data now =>
    match admin_update_product pid data now db with
    | .ok r => r.db
    | .error _ => db
  | .createA uid data now =>
    match create_alert uid data now db with
    | .ok db2 => db2
    | .error _ => db
  | .deleteA uid aid _ =>
    match delete_alert uid aid db with
    | .ok db2 => db2
    | .error _ => db

/-- The database after serving a sequence of calls. -/
def runOps (ops : List Op) (db : DB) : DB :=
  ops.foldl (fun d o => stepDB o d) db

/-- The price of the most recent entry for a product in a history table
(the entries are committed in insertion order). -/
def lastPriceIn (hist : List PriceHistory) (pid : Nat) : Option Rat :=
  ((hist.filter fun h => h.product_id == pid).map (·.price)).getLast?

/-- The price of the most recent history entry of a product. -/
def lastHistPrice (db : DB) (pid : Nat) : Option Rat :=
  lastPriceIn db.history pid

/-! ### Basic lemmas about the update handler's building blocks -/

theorem applyTitle_current_price (data : UpdateData) (p : Product) :
    (applyTitle data p).current_price = p.current_price := by
  unfold applyTitle; split <;> rfl

theorem applyTitle_id (data : UpdateData) (p : Product) :
    (applyTitle data p).id = p.id := by
  unfold applyTitle; split <;> rfl

theorem applyRealDeal_current_price (data : UpdateData) (p : Product) :
    (applyRealDeal data p).current_price = p.current_price := by
  unfold applyRealDeal; split <;> rfl

theorem applyRealDeal_id (data : UpdateData) (p : Product) :
    (applyRealDeal data p).id = p.id := by
  unfold applyRealDeal; split <;> rfl

theorem applyPriceStep_product_id (data : UpdateData) (pid now : Nat)
    (db : DB) (p : Product) :
    (applyPriceStep data pid now db p).product.id = p.id := by
  unfold applyPriceStep; split
  · rfl
  · dsimp only; split <;> rfl

theorem applyPriceStep_product_current (data : UpdateData) (pid now : Nat)
    (db : DB) (p : Product) :
    (applyPriceStep data pid now db p).product.current_price =
      data.current_price.getD p.current_price := by
  unfold applyPriceStep
  split
  · rename_i h; rw [h]; rfl
  · rename_i P h; rw [h]; dsimp only; split <;> rfl

/-- Case analysis of the `'current_price' in data` block: either nothing
happens to history, counter and prints (key absent or price unchanged), or
the price differs and exactly one history row is appended together with
one print per fired alert. -/
theorem applyPriceStep_cases (data : UpdateData) (pid now : Nat)
    (db : DB) (p : Product) :
    ((applyPriceStep data pid now db p).history = db.history ∧
     (applyPriceStep data pid now db p).nextHistId = db.next_history_id ∧
     (applyPriceStep data pid now db p).printed = [] ∧
     (data.current_price = none ∨ data.current_price = some p.current_price)) ∨
    (∃ P, data.current_price = some P ∧ p.current_price ≠ P ∧
     (applyPriceStep data pid now db p).history =
        db.history ++ [⟨db.next_history_id, pid, P, now⟩] ∧
     (applyPriceStep data pid now db p).nextHistId = db.next_history_id + 1 ∧
     (applyPriceStep data pid now db p).printed =
        (checkAlerts db.alerts pid P).map fun a => ⟨a.user_id, p.title⟩) := by
  unfold applyPriceStep
  split
  · rename_i h; exact .inl ⟨rfl, rfl, rfl, .inl h⟩
  · rename_i P h
    rw [h]; dsimp only
    split
    · rename_i heq; exact .inl ⟨rfl, rfl, rfl, .inr (by rw [heq])⟩
    · rename_i hne; exact .inr ⟨P, rfl, hne, rfl, rfl, rfl⟩

theorem mem_checkAlerts {a : PriceAlert} {alerts : List PriceAlert}
    {pid : Nat} {P : Rat} :
    a ∈ checkAlerts alerts pid P ↔
      a ∈ alerts ∧ a.product_id = pid ∧ a.is_active = true ∧ P ≤ a.target_price := by
  unfold checkAlerts
  simp only [List.mem_filter, Bool.and_eq_true, beq_iff_eq, decide_eq_true_eq]
  tauto

/-- Reduction of the update handler when the product exists and the
request changes the price. -/
theorem admin_update_product_changed (product_id : Nat) (data : UpdateData)
    (now : Nat) (db : DB) (prod : Product) (P : Rat)
    (hfind : db.products.find? (fun p => p.id == product_id) = some prod)
    (hP : data.current_price = some P)
    (hne : prod.current_price ≠ P) :
    admin_update_product product_id data now db =
      .ok { db := { db with
                    products := db.products.map fun p =>
                      if p.id == product_id then
                        { applyRealDeal data
                            { applyTitle data prod with current_price := P } with
                          updated_at := now }
                      else p,
                    history := db.history ++ [⟨db.next_history_id, product_id, P, now⟩],
                    next_history_id := db.next_history_id + 1 },
            printed := (checkAlerts db.alerts product_id P).map
              fun a => ⟨a.user_id, (applyTitle data prod).title⟩,
            response := "Product updated" } := by
  unfold admin_update_product
  rw [hfind]
  dsimp only
  unfold applyPriceStep
  rw [hP]
  dsimp only
  rw [if_neg (by rw [applyTitle_current_price]; exact hne)]

/-! ### Concrete fixtures used by counterexamples and witnesses -/

/-- A concrete product: id 1, current price 100. -/
def prodW : Product :=
  ⟨1, "Widget", "Trendyol", "Elektronik", 100, 120, 20, "img", "url", "normal", 0, 0⟩

/-- A concrete database: the product above, one history row at price 100,
and one active alert of user 7 with target price 90. -/
def dbW : DB :=
  { products := [prodW],
    history := [⟨1, 1, 100, 0⟩],
    alerts := [⟨1, 7, 1, 90, true, 0⟩],
    next_product_id := 2, next_history_id := 2, next_alert_id := 2 }

/-- Same database except the alert row has a different id and a different
target price (95, still fired by an update to 85). -/
def dbW8 : DB := { dbW with alerts := [⟨2, 7, 1, 95, true, 0⟩] }

/-- Everything a caller of the update endpoint can observe: the committed
history, the printed lines, and the response message (`none` on error). -/
def updObs : Except ApiError UpdateResult →
    Option (List PriceHistory × List AlertPrint × String)
  | .ok r => some (r.db.history, r.printed, r.response)
  | .error _ => none

/-! ### C1: the firing rule -/

/-- Claim C1: on a price update that changes the price, one trigger line is
printed per alert in the scan result, and an active alert on the product is
in the scan result if and only if `new_price <= target_price`; the boundary
`new_price = target_price` fires, and the scan depends only on the new
price, never on the old one. -/
theorem alert_firing_rule_iff (product_id : Nat) (data : UpdateData) (now : Nat)
    (db : DB) (prod : Product) (P : Rat)
    (hfind : db.products.find? (fun p => p.id == product_id) = some prod)
    (hP : data.current_price = some P)
    (hne : prod.current_price ≠ P) :
    ∃ r, admin_update_product product_id data now db = .ok r ∧
      r.printed = (checkAlerts db.alerts product_id P).map
        (fun a => ⟨a.user_id, (applyTitle data prod).title⟩) ∧
      (∀ a ∈ db.alerts, a.product_id = product_id → a.is_active = true →
        (a ∈ checkAlerts db.alerts product_id P ↔ P ≤ a.target_price)) ∧
      (∀ a ∈ db.alerts, a.product_id = product_id → a.is_active = true →
        P = a.target_price → a ∈ checkAlerts db.alerts product_id P) := by
  refine ⟨_, admin_update_product_changed product_id data now db prod P hfind hP hne,
    rfl, ?_, ?_⟩
  · intro a ha h1 h2
    simp [mem_checkAlerts, ha, h1, h2]
  · intro a ha h1 h2 h3
    exact mem_checkAlerts.2 ⟨ha, h1, h2, le_of_eq h3⟩

/-- Witness for C1 at the concrete database `dbW`: the update to 85 fires
the target-90 alert. -/
theorem alert_firing_rule_iff_witness :
    ∃ r, admin_update_product 1 ⟨none, some 85, none⟩ 5 dbW = .ok r ∧
      r.printed = (checkAlerts dbW.alerts 1 85).map
        (fun a => ⟨a.user_id, (applyTitle ⟨none, some 85, none⟩ prodW).title⟩) ∧
      (∀ a ∈ dbW.alerts, a.product_id = 1 → a.is_active = true →
        (a ∈ checkAlerts dbW.alerts 1 85 ↔ (85 : Rat) ≤ a.target_price)) ∧
      (∀ a ∈ dbW.alerts, a.product_id = 1 → a.is_active = true →
        (85 : Rat) = a.target_price → a ∈ checkAlerts dbW.alerts 1 85) :=
  alert_firing_rule_iff 1 ⟨none, some 85, none⟩ 5 dbW prodW 85 (by decide) rfl (by decide)

/-! ### C2: a no-op price update -/

/-- Claim C2 (amended): when the submitted price equals the stored price,
no history row is written, the history counter does not advance, and no
alert line is printed -- but the response is the same generic
`'Product updated'` message a changed call produces. -/
theorem noop_update_no_history_no_eval (product_id : Nat) (data : UpdateData)
    (now : Nat) (db : DB) (prod : Product) (P : Rat)
    (hfind : db.products.find? (fun p => p.id == product_id) = some prod)
    (hP : data.current_price = some P)
    (heq : prod.current_price = P) :
    ∃ r, admin_update_product product_id data now db = .ok r ∧
      r.db.history = db.history ∧
      r.db.next_history_id = db.next_history_id ∧
      r.printed = [] ∧
      r.response = "Product updated" := by
  unfold admin_update_product
  rw [hfind]
  dsimp only
  unfold applyPriceStep
  rw [hP]
  dsimp only
  rw [if_pos (by rw [applyTitle_current_price]; exact heq)]
  exact ⟨_, rfl, rfl, rfl, rfl, rfl⟩

/-- Witness for C2 (amended) at `dbW`: resubmitting price 100. -/
theorem noop_update_no_history_no_eval_witness :
    ∃ r, admin_update_product 1 ⟨none, some 100, none⟩ 5 dbW = .ok r ∧
      r.db.history = dbW.history ∧
      r.db.next_history_id = dbW.next_history_id ∧
      r.printed = [] ∧
      r.response = "Product updated" :=
  noop_update_no_history_no_eval 1 ⟨none, some 100, none⟩ 5 dbW prodW 100
    (by decide) rfl (by decide)

/-- Counterexample to C2 as stated: the no-op call answers exactly the
same `'Product updated'` response as a changed call, so the operation does
not report that no change occurred. -/
theorem noop_update_same_response_cex :
    updObs (admin_update_product 1 ⟨none, some 100, none⟩ 5 dbW) =
      some (dbW.history, [], "Product updated") ∧
    updObs (admin_update_product 1 ⟨none, some 85, none⟩ 5 dbW) =
      some (dbW.history ++ [⟨2, 1, 85, 5⟩], [⟨7, "Widget"⟩], "Product updated") := by
  decide

/-! ### C8: what a changed update reports -/

/-- Claim C8 (amended): a changed price-update call answers the fixed
`'Product updated'` message; the triggered alerts surface only as printed
log lines, one per fired alert, carrying the alert's `user_id` and the
product title -- not as returned `TriggeredAlert` data. -/
theorem changed_update_response_and_prints (product_id : Nat)
    (data : UpdateData) (now : Nat) (db : DB) (prod : Product) (P : Rat)
    (hfind : db.products.find? (fun p => p.id == product_id) = some prod)
    (hP : data.current_price = some P)
    (hne : prod.current_price ≠ P) :
    ∃ r, admin_update_product product_id data now db = .ok r ∧
      r.response = "Product updated" ∧
      r.printed = (checkAlerts db.alerts product_id P).map
        (fun a => AlertPrint.mk a.user_id (applyTitle data prod).title) ∧
      r.db.history = db.history ++ [⟨db.next_history_id, product_id, P, now⟩] :=
  ⟨_, admin_update_product_changed product_id data now db prod P hfind hP hne,
    rfl, rfl, rfl⟩

/-- Witness for C8 (amended) at `dbW`. -/
theorem changed_update_response_and_prints_witness :
    ∃ r, admin_update_product 1 ⟨none, some 85, none⟩ 5 dbW = .ok r ∧
      r.response = "Product updated" ∧
      r.printed = (checkAlerts dbW.alerts 1 85).map
        (fun a => AlertPrint.mk a.user_id (applyTitle ⟨none, some 85, none⟩ prodW).title) ∧
      r.db.history = dbW.history ++ [⟨2, 1, 85, 5⟩] :=
  changed_update_response_and_prints 1 ⟨none, some 85, none⟩ 5 dbW prodW 85
    (by decide) rfl (by decide)

/-- Counterexample to C8 as stated: two databases whose alert rows differ
in `alert_id` and `target_price` produce bit-identical observable results
(history, printed lines, response) for the same firing update, and the
alert scans differ -- so the result reports neither a `changed` flag nor
the evaluator's `TriggeredAlert` list. -/
theorem response_omits_triggered_alerts_cex :
    updObs (admin_update_product 1 ⟨none, some 85, none⟩ 5 dbW) =
      updObs (admin_update_product 1 ⟨none, some 85, none⟩ 5 dbW8) ∧
    checkAlerts dbW.alerts 1 85 ≠ checkAlerts dbW8.alerts 1 85 := by
  decide

/-! ### C3: no input validation -/

/-- Claim C3 (amended): the update handler performs no validation of the
submitted price: a negative `new_price` differing from the stored price is
accepted -- it is stored as `current_price`, one history row with the
negative price is appended, and the alert scan runs and prints its
trigger lines. -/
theorem negative_price_no_validation (product_id : Nat) (data : UpdateData)
    (now : Nat) (db : DB) (prod : Product) (P : Rat)
    (hfind : db.products.find? (fun p => p.id == product_id) = some prod)
    (hP : data.current_price = some P)
    (_hneg : P < 0)
    (hne : prod.current_price ≠ P) :
    ∃ r, admin_update_product product_id data now db = .ok r ∧
      r.db.history = db.history ++ [⟨db.next_history_id, product_id, P, now⟩] ∧
      (∀ p ∈ r.db.products, p.id = product_id → p.current_price = P) ∧
      r.printed = (checkAlerts db.alerts product_id P).map
        (fun a => ⟨a.user_id, (applyTitle data prod).title⟩) := by
  refine ⟨_, admin_update_product_changed product_id data now db prod P hfind hP hne,
    rfl, ?_, rfl⟩
  intro p hp hid
  rcases List.mem_map.1 hp with ⟨q, hq, rfl⟩
  by_cases h : q.id = product_id
  · simp only [h, beq_self_eq_true, if_true]
    rw [show ({ applyRealDeal data
        { applyTitle data prod with current_price := P } with
          updated_at := now } : Product).current_price =
        (applyRealDeal data
          { applyTitle data prod with current_price := P }).current_price from rfl,
      applyRealDeal_current_price]
  · rw [if_neg (by simp [h])] at hid
    exact absurd hid h

/-- Witness for C3 (amended) at `dbW`: updating to price `-5`. -/
theorem negative_price_no_validation_witness :
    ∃ r, admin_update_product 1 ⟨none, some (-5), none⟩ 5 dbW = .ok r ∧
      r.db.history = dbW.history ++ [⟨2, 1, -5, 5⟩] ∧
      (∀ p ∈ r.db.products, p.id = 1 → p.current_price = -5) ∧
      r.printed = (checkAlerts dbW.alerts 1 (-5)).map
        (fun a => ⟨a.user_id, (applyTitle ⟨none, some (-5), none⟩ prodW).title⟩) :=
  negative_price_no_validation 1 ⟨none, some (-5), none⟩ 5 dbW prodW (-5)
    (by decide) rfl (by decide) (by decide)

/-- Counterexample to C3 as stated: at `dbW` the call with price `-5`
does not fail -- the negative price is committed to history and to the
product, and the target-90 alert even fires. -/
theorem negative_price_accepted_cex :
    updObs (admin_update_product 1 ⟨none, some (-5), none⟩ 5 dbW) =
      some (dbW.history ++ [⟨2, 1, -5, 5⟩], [⟨7, "Widget"⟩], "Product updated") ∧
    (stepDB (.updateP 1 ⟨none, some (-5), none⟩ 5) dbW).products.map
      Product.current_price = [-5] := by
  decide

/-! ### C9: updated_at is stamped on every call -/

/-- Claim C9: every successful product-update call stamps the product's
`updated_at` with the current time and commits, whatever the request body
contains -- also when it carries no recognised field at all. -/
theorem update_always_touches_updated_at (product_id : Nat) (data : UpdateData)
    (now : Nat) (db : DB) (prod : Product)
    (hfind : db.products.find? (fun p => p.id == product_id) = some prod) :
    ∃ r, admin_update_product product_id data now db = .ok r ∧
      r.response = "Product updated" ∧
      ∀ p ∈ r.db.products, p.id = product_id → p.updated_at = now := by
  unfold admin_update_product
  rw [hfind]
  dsimp only
  refine ⟨_, rfl, rfl, ?_⟩
  intro p hp hid
  rcases List.mem_map.1 hp with ⟨q, hq, rfl⟩
  by_cases h : q.id = product_id
  · simp only [h, beq_self_eq_true, if_true]
  · rw [if_neg (by simp [h])] at hid
    exact absurd hid h

/-- Witness for C9 at `dbW` with an empty request body. -/
theorem update_always_touches_updated_at_witness :
    ∃ r, admin_update_product 1 ⟨none, none, none⟩ 7 dbW = .ok r ∧
      r.response = "Product updated" ∧
      ∀ p ∈ r.db.products, p.id = 1 → p.updated_at = 7 :=
  update_always_touches_updated_at 1 ⟨none, none, none⟩ 7 dbW prodW (by decide)

/-! ### C10: owner-scoped alert deletion -/

/-- Claim C10: `delete_alert` looks the alert up by id AND requesting
user: with no such owned alert (in particular when the alert belongs to
another user) it answers 404 and commits nothing; otherwise it deletes
exactly the first matching alert, which is owned by the requesting user,
and touches no other table. -/
theorem delete_alert_owner_scoped (uid alert_id now : Nat) (db : DB) :
    ((∀ a ∈ db.alerts, ¬(a.id = alert_id ∧ a.user_id = uid)) →
      delete_alert uid alert_id db = .error .notFound ∧
      stepDB (.deleteA uid alert_id now) db = db) ∧
    (∀ a ∈ db.alerts, a.id = alert_id → a.user_id = uid →
      ∃ db2 c l1 l2, delete_alert uid alert_id db = .ok db2 ∧
        db.alerts = l1 ++ c :: l2 ∧ c.id = alert_id ∧ c.user_id = uid ∧
        (∀ b ∈ l1, ¬(b.id = alert_id ∧ b.user_id = uid)) ∧
        db2.alerts = l1 ++ l2 ∧
        db2.products = db.products ∧ db2.history = db.history) := by
  constructor
  · intro hnone
    have hfind : db.alerts.find? (fun a => a.id == alert_id && a.user_id == uid)
        = none := by
      rw [List.find?_eq_none]
      intro a ha
      simp only [Bool.and_eq_true, beq_iff_eq]
      exact hnone a ha
    have h1 : delete_alert uid alert_id db = .error .notFound := by
      unfold delete_alert; rw [hfind]
    refine ⟨h1, ?_⟩
    unfold stepDB
    dsimp only
    rw [h1]
  · intro a ha hid huid
    have hpa : (a.id == alert_id && a.user_id == uid) = true := by
      simp [hid, huid]
    obtain ⟨c, l1, l2, hl1, hpc, hsplit, herase⟩ :=
      List.exists_of_eraseP (p := fun b => b.id == alert_id && b.user_id == uid) ha hpa
    have hfind : (db.alerts.find?
        fun b => b.id == alert_id && b.user_id == uid).isSome := by
      rw [List.find?_isSome]; exact ⟨a, ha, hpa⟩
    obtain ⟨b, hb⟩ := Option.isSome_iff_exists.1 hfind
    have hpc2 : c.id = alert_id ∧ c.user_id = uid := by
      simpa only [Bool.and_eq_true, beq_iff_eq] using hpc
    refine ⟨{ db with alerts :=
        db.alerts.eraseP fun b => b.id == alert_id && b.user_id == uid },
      c, l1, l2, ?_, hsplit, hpc2.1, hpc2.2, ?_, herase, rfl, rfl⟩
    · unfold delete_alert; rw [hb]
    · intro b2 hb2 hcon
      exact absurd (by simp [hcon.1, hcon.2]) (hl1 b2 hb2)

/-- Witness for C10 at `dbW`: user 8 cannot delete user 7's alert; user 7
can. -/
theorem delete_alert_owner_scoped_witness :
    (delete_alert 8 1 dbW = .error .notFound ∧
      stepDB (.deleteA 8 1 9) dbW = dbW) ∧
    (∃ db2 c l1 l2, delete_alert 7 1 dbW = .ok db2 ∧
      dbW.alerts = l1 ++ c :: l2 ∧ c.id = 1 ∧ c.user_id = 7 ∧
      (∀ b ∈ l1, ¬(b.id = 1 ∧ b.user_id = 7)) ∧
      db2.alerts = l1 ++ l2 ∧
      db2.products = dbW.products ∧ db2.history = dbW.history) :=
  ⟨(delete_alert_owner_scoped 8 1 9 dbW).1 (by decide),
   (delete_alert_owner_scoped 7 1 9 dbW).2 ⟨1, 7, 1, 90, true, 0⟩
     (by decide) rfl rfl⟩

/-! ### C4: the PriceAlert state machine -/

/-- A successful alert creation appends exactly one alert row whose
`is_active` takes the model's default `True`. -/
theorem create_alert_ok_alerts (uid : Nat) (data : AlertData) (now : Nat)
    (db db2 : DB) (h : create_alert uid data now db = .ok db2) :
    ∃ pid target, data.product_id = some pid ∧ data.target_price = some target ∧
      pid ≠ 0 ∧
      db2.alerts = db.alerts ++ [⟨db.next_alert_id, uid, pid, target, true, now⟩] := by
  unfold create_alert at h
  cases hp : data.product_id with
  | none => rw [hp] at h; simp at h
  | some pid =>
    cases ht : data.target_price with
    | none => rw [hp, ht] at h; simp at h
    | some target =>
      rw [hp, ht] at h
      dsimp only at h
      by_cases h0 : pid = 0
      · rw [if_pos h0] at h; simp at h
      · rw [if_neg h0] at h
        cases h
        exact ⟨pid, target, rfl, rfl, h0, rfl⟩

/-- A product update never touches the alerts table, fired or not. -/
theorem stepDB_updateP_alerts (pid : Nat) (data : UpdateData) (now : Nat)
    (db : DB) :
    (stepDB (.updateP pid data now) db).alerts = db.alerts := by
  unfold stepDB
  cases hfind : db.products.find? fun p => p.id == pid with
  | none => simp [admin_update_product, hfind]
  | some prod => simp [admin_update_product, hfind]

/-- An alert deletion can only remove alert rows. -/
theorem stepDB_deleteA_alerts_sublist (uid aid now : Nat) (db : DB) :
    (stepDB (.deleteA uid aid now) db).alerts.Sublist db.alerts := by
  unfold stepDB
  dsimp only
  cases hres : delete_alert uid aid db with
  | error e => exact List.Sublist.refl _
  | ok db2 =>
    unfold delete_alert at hres
    cases hfind : db.alerts.find? fun a => a.id == aid && a.user_id == uid with
    | none => rw [hfind] at hres; cases hres
    | some b =>
      rw [hfind] at hres
      cases hres
      exact List.eraseP_sublist _

/-- One served call keeps every stored alert active. -/
theorem alerts_active_step (op : Op) (db : DB)
    (hdb : ∀ a ∈ db.alerts, a.is_active = true) :
    ∀ a ∈ (stepDB op db).alerts, a.is_active = true := by
  cases op with
  | createP data now => exact hdb
  | updateP pid data now => rw [stepDB_updateP_alerts]; exact hdb
  | createA uid data now =>
    intro a ha
    unfold stepDB at ha
    dsimp only at ha
    cases hres : create_alert uid data now db with
    | error e => rw [hres] at ha; exact hdb a ha
    | ok db2 =>
      rw [hres] at ha
      obtain ⟨pid, target, _, _, _, halerts⟩ :=
        create_alert_ok_alerts uid data now db db2 hres
      rw [halerts] at ha
      rcases List.mem_append.1 ha with h | h
      · exact hdb a h
      · rcases List.mem_singleton.1 h with rfl
        rfl
  | deleteA uid aid now =>
    intro a ha
    exact hdb a ((stepDB_deleteA_alerts_sublist uid aid now db).subset ha)

/-- Every trace keeps every stored alert active. -/
theorem alerts_active_run (ops : List Op) (db : DB)
    (hdb : ∀ a ∈ db.alerts, a.is_active = true) :
    ∀ a ∈ (runOps ops db).alerts, a.is_active = true := by
  induction ops generalizing db with
  | nil => exact hdb
  | cons op ops ih => exact ih (stepDB op db) (alerts_active_step op db hdb)

/-- Claim C4: the PriceAlert lifecycle as the code implements it: the
only states are the two values of `is_active`; every alert reachable by
any trace from an empty database is active (creation defaults to active
and nothing ever clears the flag); a successful creation appends an
active alert; a price update -- fired alerts included -- leaves the
alerts table untouched; deletion only removes rows; and because firing
changes nothing, an alert that fired keeps firing on every later
qualifying update. -/
theorem price_alert_state_machine :
    (∀ ops, ∀ a ∈ (runOps ops DB.empty).alerts, a.is_active = true) ∧
    (∀ uid data now db db2, create_alert uid data now db = .ok db2 →
      ∃ pid target, data.product_id = some pid ∧
        data.target_price = some target ∧ pid ≠ 0 ∧
        db2.alerts = db.alerts ++ [⟨db.next_alert_id, uid, pid, target, true, now⟩]) ∧
    (∀ pid data now db, (stepDB (.updateP pid data now) db).alerts = db.alerts) ∧
    (∀ uid aid now db, (stepDB (.deleteA uid aid now) db).alerts.Sublist db.alerts) ∧
    (∀ pid data now db P P2 a, a ∈ checkAlerts db.alerts pid P →
      P2 ≤ a.target_price →
      a ∈ checkAlerts (stepDB (.updateP pid data now) db).alerts pid P2) := by
  refine ⟨?_, create_alert_ok_alerts, stepDB_updateP_alerts,
    stepDB_deleteA_alerts_sublist, ?_⟩
  · intro ops
    exact alerts_active_run ops DB.empty (by intro a ha; cases ha)
  · intro pid data now db P P2 a ha hP2
    rw [stepDB_updateP_alerts]
    obtain ⟨h1, h2, h3, _⟩ := mem_checkAlerts.1 ha
    exact mem_checkAlerts.2 ⟨h1, h2, h3, hP2⟩

/-- The database after user 7 creates an alert on product 1 in `dbW`. -/
def db2W : DB :=
  { dbW with alerts := dbW.alerts ++ [⟨2, 7, 1, 90, true, 3⟩],
             next_alert_id := 3 }

/-- Witness for C4 at concrete inputs: an alert created on a fresh
database is active; creation on `dbW` appends an active row; a firing
update leaves the alerts untouched, and the alert fires again at the
later price 80. -/
theorem price_alert_state_machine_witness :
    (⟨1, 7, 1, 90, true, 3⟩ : PriceAlert).is_active = true ∧
    (∃ pid target, (⟨some 1, some 90⟩ : AlertData).product_id = some pid ∧
      (⟨some 1, some 90⟩ : AlertData).target_price = some target ∧ pid ≠ 0 ∧
      db2W.alerts = dbW.alerts ++ [⟨dbW.next_alert_id, 7, pid, target, true, 3⟩]) ∧
    (stepDB (.updateP 1 ⟨none, some 85, none⟩ 5) dbW).alerts = dbW.alerts ∧
    (stepDB (.deleteA 7 1 9) dbW).alerts.Sublist dbW.alerts ∧
    (⟨1, 7, 1, 90, true, 0⟩ : PriceAlert) ∈
      checkAlerts (stepDB (.updateP 1 ⟨none, some 85, none⟩ 5) dbW).alerts 1 80 :=
  ⟨price_alert_state_machine.1 [.createA 7 ⟨some 1, some 90⟩ 3]
     ⟨1, 7, 1, 90, true, 3⟩ (by decide),
   price_alert_state_machine.2.1 7 ⟨some 1, some 90⟩ 3 dbW db2W rfl,
   price_alert_state_machine.2.2.1 1 ⟨none, some 85, none⟩ 5 dbW,
   price_alert_state_machine.2.2.2.1 7 1 9 dbW,
   price_alert_state_machine.2.2.2.2 1 ⟨none, some 85, none⟩ 5 dbW 85 80
     ⟨1, 7, 1, 90, true, 0⟩ (by decide) (by decide)⟩

/-! ### C7: frame of a price update -/

/-- Reduction of the update handler when the request carries no price or
resubmits the stored price: nothing happens to history, counter or
prints. -/
theorem admin_update_product_noop (product_id : Nat) (data : UpdateData)
    (now : Nat) (db : DB) (prod : Product)
    (hfind : db.products.find? (fun p => p.id == product_id) = some prod)
    (hnoop : data.current_price = none ∨ data.current_price = some prod.current_price) :
    ∃ r, admin_update_product product_id data now db = .ok r ∧
      r.db.history = db.history ∧
      r.db.next_history_id = db.next_history_id ∧
      r.printed = [] := by
  unfold admin_update_product
  rw [hfind]
  dsimp only
  unfold applyPriceStep
  rcases hnoop with h | h
  · rw [h]
    exact ⟨_, rfl, rfl, rfl, rfl⟩
  · rw [h]
    dsimp only
    rw [if_pos (applyTitle_current_price data prod)]
    exact ⟨_, rfl, rfl, rfl, rfl⟩

/-- Claim C7: a price-changing call appends exactly one history row (with
the new price) and rewrites exactly the rows of the updated product,
keeping every other product row identical; a call that does not change
the price (same price resubmitted, or no price in the body) leaves the
history untouched. -/
theorem changed_update_one_history_row (product_id : Nat) (data : UpdateData)
    (now : Nat) (db : DB) (prod : Product)
    (hfind : db.products.find? (fun p => p.id == product_id) = some prod) :
    (∀ P, data.current_price = some P → prod.current_price ≠ P →
      ∃ r, admin_update_product product_id data now db = .ok r ∧
        r.db.history = db.history ++ [⟨db.next_history_id, product_id, P, now⟩] ∧
        r.db.products.length = db.products.length ∧
        (∀ (i : Nat) (p : Product), db.products[i]? = some p → p.id ≠ product_id →
          r.db.products[i]? = some p) ∧
        (∀ (i : Nat) (p : Product), db.products[i]? = some p → p.id = product_id →
          ∃ q, r.db.products[i]? = some q ∧ q.id = p.id ∧ q.current_price = P)) ∧
    (∀ P, data.current_price = some P → prod.current_price = P →
      ∃ r, admin_update_product product_id data now db = .ok r ∧
        r.db.history = db.history) ∧
    (data.current_price = none →
      ∃ r, admin_update_product product_id data now db = .ok r ∧
        r.db.history = db.history) := by
  have hprodid : prod.id = product_id := by
    have := List.find?_some hfind
    simpa using this
  refine ⟨?_, ?_, ?_⟩
  · intro P hP hne
    refine ⟨_, admin_update_product_changed product_id data now db prod P hfind hP hne,
      rfl, List.length_map _ _, ?_, ?_⟩
    · intro i p hp hid
      rw [List.getElem?_map, hp]
      simp only [Option.map_some']
      rw [if_neg (by simp [hid])]
    · intro i p hp hid
      rw [List.getElem?_map, hp]
      simp only [Option.map_some']
      rw [if_pos (by simp [hid])]
      refine ⟨_, rfl, ?_, ?_⟩
      · show (applyRealDeal data _).id = p.id
        rw [applyRealDeal_id]
        show (applyTitle data prod).id = p.id
        rw [applyTitle_id, hprodid, hid]
      · show (applyRealDeal data _).current_price = P
        rw [applyRealDeal_current_price]
  · intro P hP heq
    obtain ⟨r, hr, hh, _, _⟩ :=
      admin_update_product_noop product_id data now db prod hfind (.inr (heq ▸ hP))
    exact ⟨r, hr, hh⟩
  · intro hP
    obtain ⟨r, hr, hh, _, _⟩ :=
      admin_update_product_noop product_id data now db prod hfind (.inl hP)
    exact ⟨r, hr, hh⟩

/-- Witness for C7 at `dbW`: the changed call (85), the resubmission
(100), and the body without a price. -/
theorem changed_update_one_history_row_witness :
    (∃ r, admin_update_product 1 ⟨none, some 85, none⟩ 5 dbW = .ok r ∧
      r.db.history = dbW.history ++ [⟨2, 1, 85, 5⟩] ∧
      r.db.products.length = dbW.products.length ∧
      (∀ (i : Nat) (p : Product), dbW.products[i]? = some p → p.id ≠ 1 →
        r.db.products[i]? = some p) ∧
      (∀ (i : Nat) (p : Product), dbW.products[i]? = some p → p.id = 1 →
        ∃ q, r.db.products[i]? = some q ∧ q.id = p.id ∧ q.current_price = 85)) ∧
    (∃ r, admin_update_product 1 ⟨none, some 100, none⟩ 5 dbW = .ok r ∧
      r.db.history = dbW.history) ∧
    (∃ r, admin_update_product 1 ⟨none, none, none⟩ 5 dbW = .ok r ∧
      r.db.history = dbW.history) :=
  ⟨(changed_update_one_history_row 1 ⟨none, some 85, none⟩ 5 dbW prodW
      (by decide)).1 85 rfl (by decide),
   (changed_update_one_history_row 1 ⟨none, some 100, none⟩ 5 dbW prodW
      (by decide)).2.1 100 rfl (by decide),
   (changed_update_one_history_row 1 ⟨none, none, none⟩ 5 dbW prodW
      (by decide)).2.2 rfl⟩

/-! ### C5: current_price tracks the most recent history entry -/

theorem lastPriceIn_append_one (hist : List PriceHistory) (e : PriceHistory)
    (pid : Nat) :
    lastPriceIn (hist ++ [e]) pid =
      if e.product_id = pid then some e.price else lastPriceIn hist pid := by
  unfold lastPriceIn
  rw [List.filter_append]
  by_cases h : e.product_id = pid
  · rw [if_pos h]
    have he : List.filter (fun h2 => h2.product_id == pid) [e] = [e] := by
      simp [h]
    rw [he, List.map_append]
    exact List.getLast?_concat _
  · rw [if_neg h]
    have he : List.filter (fun h2 => h2.product_id == pid) [e] = [] := by
      simp [h]
    rw [he, List.append_nil]

/-- A successful alert creation touches nothing but the alerts table and
its counter. -/
theorem create_alert_ok_frame (uid : Nat) (data : AlertData) (now : Nat)
    (db db2 : DB) (h : create_alert uid data now db = .ok db2) :
    db2.products = db.products ∧ db2.history = db.history ∧
    db2.next_product_id = db.next_product_id ∧
    db2.next_history_id = db.next_history_id := by
  unfold create_alert at h
  cases hp : data.product_id with
  | none => rw [hp] at h; simp at h
  | some pid =>
    cases ht : data.target_price with
    | none => rw [hp, ht] at h; simp at h
    | some target =>
      rw [hp, ht] at h
      dsimp only at h
      by_cases h0 : pid = 0
      · rw [if_pos h0] at h; simp at h
      · rw [if_neg h0] at h
        cases h
        exact ⟨rfl, rfl, rfl, rfl⟩

/-- A successful alert deletion touches nothing but the alerts table. -/
theorem delete_alert_ok_frame (uid aid : Nat) (db db2 : DB)
    (h : delete_alert uid aid db = .ok db2) :
    db2.products = db.products ∧ db2.history = db.history ∧
    db2.next_product_id = db.next_product_id ∧
    db2.next_history_id = db.next_history_id := by
  unfold delete_alert at h
  cases hfind : db.alerts.find? fun a => a.id == aid && a.user_id == uid with
  | none => rw [hfind] at h; cases h
  | some b =>
    rw [hfind] at h
    cases h
    exact ⟨rfl, rfl, rfl, rfl⟩

/-- Full characterisation of a successful product update: the committed
database keeps everything except the rows of the updated product, the
history delta of the price step, and its counter. -/
theorem admin_update_product_ok_db (product_id : Nat) (data : UpdateData)
    (now : Nat) (db : DB) (prod : Product)
    (hfind : db.products.find? (fun p => p.id == product_id) = some prod) :
    ∃ r, admin_update_product product_id data now db = .ok r ∧
      r.db.products = db.products.map (fun p =>
        if p.id == product_id then
          { applyRealDeal data
              (applyPriceStep data product_id now db (applyTitle data prod)).product
            with updated_at := now }
        else p) ∧
      r.db.history =
        (applyPriceStep data product_id now db (applyTitle data prod)).history ∧
      r.db.alerts = db.alerts ∧
      r.db.next_product_id = db.next_product_id ∧
      r.db.next_history_id =
        (applyPriceStep data product_id now db (applyTitle data prod)).nextHistId ∧
      r.db.next_alert_id = db.next_alert_id := by
  unfold admin_update_product
  rw [hfind]
  exact ⟨_, rfl, rfl, rfl, rfl, rfl, rfl, rfl⟩

/-- The invariant behind claim C5 (DBInv): product ids and history rows stay below
the id counter, and every product's `current_price` is the price of its
most recent history entry. -/
def DBInv (db : DB) : Prop :=
  (∀ p ∈ db.products, p.id < db.next_product_id) ∧
  (∀ h ∈ db.history, h.product_id < db.next_product_id) ∧
  (∀ p ∈ db.products, lastHistPrice db p.id = some p.current_price)

theorem DBInv_empty : DBInv DB.empty := by
  refine ⟨?_, ?_, ?_⟩ <;> intro x hx <;> cases hx

theorem DBInv_step (op : Op) (db : DB) (hInv : DBInv db) : DBInv (stepDB op db) := by
  obtain ⟨hid, hhid, hlast⟩ := hInv
  cases op with
  | createP data now =>
    dsimp only [stepDB]
    unfold admin_create_product
    dsimp only
    refine ⟨?_, ?_, ?_⟩
    · intro p hp
      rcases List.mem_append.1 hp with h | h
      · exact Nat.lt_succ_of_lt (hid p h)
      · rcases List.mem_singleton.1 h with rfl
        exact Nat.lt_succ_self _
    · intro h hh
      rcases List.mem_append.1 hh with h2 | h2
      · exact Nat.lt_succ_of_lt (hhid h h2)
      · rcases List.mem_singleton.1 h2 with rfl
        exact Nat.lt_succ_self _
    · intro p hp
      show lastPriceIn _ p.id = some p.current_price
      rw [lastPriceIn_append_one]
      rcases List.mem_append.1 hp with h | h
      · rw [if_neg (Nat.ne_of_gt (hid p h))]
        exact hlast p h
      · rcases List.mem_singleton.1 h with rfl
        rw [if_pos rfl]
  | updateP product_id data now =>
    dsimp only [stepDB]
    cases hres : admin_update_product product_id data now db with
    | error e => exact ⟨hid, hhid, hlast⟩
    | ok r =>
      cases hfind : db.products.find? fun p => p.id == product_id with
      | none =>
        unfold admin_update_product at hres
        rw [hfind] at hres
        cases hres
      | some prod =>
        have hprodmem : prod ∈ db.products := List.mem_of_find?_eq_some hfind
        have hprodid : prod.id = product_id := by
          simpa using List.find?_some hfind
        obtain ⟨r2, hr2, hprods, hhist, _, hnpid, hnhid, _⟩ :=
          admin_update_product_ok_db product_id data now db prod hfind
        rw [hres] at hr2
        cases hr2
        have hFid : (({ applyRealDeal data
            (applyPriceStep data product_id now db (applyTitle data prod)).product
              with updated_at := now } : Product)).id = product_id := by
          show (applyRealDeal data _).id = product_id
          rw [applyRealDeal_id, applyPriceStep_product_id, applyTitle_id, hprodid]
        refine ⟨?_, ?_, ?_⟩
        · intro p hp
          rw [hprods] at hp
          rcases List.mem_map.1 hp with ⟨q, hq, rfl⟩
          rw [hnpid]
          by_cases h : q.id = product_id
          · rw [if_pos (by simp [h])]
            rw [hFid, ← hprodid]
            exact hid prod hprodmem
          · rw [if_neg (by simp [h])]
            exact hid q hq
        · intro h hh
          rw [hhist] at hh
          rw [hnpid]
          rcases applyPriceStep_cases data product_id now db (applyTitle data prod)
            with ⟨h1, _, _, _⟩ | ⟨P, _, _, h1, _, _⟩
          · rw [h1] at hh
            exact hhid h hh
          · rw [h1] at hh
            rcases List.mem_append.1 hh with h2 | h2
            · exact hhid h h2
            · rcases List.mem_singleton.1 h2 with rfl
              rw [← hprodid] at *
              exact hid prod hprodmem
        · intro p hp
          rw [hprods] at hp
          rcases List.mem_map.1 hp with ⟨q, hq, rfl⟩
          have hFcp : (({ applyRealDeal data
              (applyPriceStep data product_id now db (applyTitle data prod)).product
                with updated_at := now } : Product)).current_price =
              data.current_price.getD prod.current_price := by
            show (applyRealDeal data _).current_price = _
            rw [applyRealDeal_current_price, applyPriceStep_product_current,
              applyTitle_current_price]
          show lastPriceIn _ _ = _
          rw [hhist]
          rcases applyPriceStep_cases data product_id now db (applyTitle data prod)
            with ⟨h1, _, _, hnoop⟩ | ⟨P, hsome, hne, h1, _, _⟩
          · rw [h1]
            by_cases h : q.id = product_id
            · rw [if_pos (by simp [h])]
              rw [hFid, hFcp]
              have : data.current_price.getD prod.current_price = prod.current_price := by
                rcases hnoop with h2 | h2
                · rw [h2]; rfl
                · rw [h2, applyTitle_current_price]; rfl
              rw [this, ← hprodid]
              exact hlast prod hprodmem
            · rw [if_neg (by simp [h])]
              exact hlast q hq
          · rw [h1]
            by_cases h : q.id = product_id
            · rw [if_pos (by simp [h])]
              show lastPriceIn _ _ = _
              rw [lastPriceIn_append_one]
              rw [hFid, hFcp, hsome]
              rw [if_pos rfl]
              rfl
            · rw [if_neg (by simp [h])]
              show lastPriceIn _ _ = _
              rw [lastPriceIn_append_one]
              rw [if_neg (Ne.symm h)]
              exact hlast q hq
  | createA uid data now =>
    dsimp only [stepDB]
    cases hres : create_alert uid data now db with
    | error e => exact ⟨hid, hhid, hlast⟩
    | ok db2 =>
      obtain ⟨h1, h2, h3, _⟩ := create_alert_ok_frame uid data now db db2 hres
      refine ⟨?_, ?_, ?_⟩
      · rw [h1, h3]; exact hid
      · rw [h2, h3]; exact hhid
      · intro p hp
        show lastPriceIn db2.history p.id = _
        rw [h2]
        exact hlast p (h1 ▸ hp)
  | deleteA uid aid now =>
    dsimp only [stepDB]
    cases hres : delete_alert uid aid db with
    | error e => exact ⟨hid, hhid, hlast⟩
    | ok db2 =>
      obtain ⟨h1, h2, h3, _⟩ := delete_alert_ok_frame uid aid db db2 hres
      refine ⟨?_, ?_, ?_⟩
      · rw [h1, h3]; exact hid
      · rw [h2, h3]; exact hhid
      · intro p hp
        show lastPriceIn db2.history p.id = _
        rw [h2]
        exact hlast p (h1 ▸ hp)

theorem DBInv_run (ops : List Op) (db : DB) (h : DBInv db) : DBInv (runOps ops db) := by
  induction ops generalizing db with
  | nil => exact h
  | cons op ops ih => exact ih (stepDB op db) (DBInv_step op db h)

/-- Claim C5: after any sequence of product-creation, price-update and
alert operations served from an empty database, every product's
`current_price` is the price of its most recent history entry. -/
theorem current_price_matches_last_history (ops : List Op) :
    ∀ p ∈ (runOps ops DB.empty).products,
      lastHistPrice (runOps ops DB.empty) p.id = some p.current_price :=
  (DBInv_run ops DB.empty DBInv_empty).2.2

/-- The request body creating the witness product. -/
def cdW : CreateData :=
  ⟨"Widget", "Trendyol", "Elektronik", 100, 120, 20, "img", "url", none⟩

/-- A concrete trace: create a product at price 100, drop its price to
85, then create an alert. -/
def opsW : List Op :=
  [.createP cdW 1, .updateP 1 ⟨none, some 85, none⟩ 2,
   .createA 7 ⟨some 1, some 90⟩ 3]

/-- The product as it stands at the end of `opsW`. -/
def pW : Product :=
  ⟨1, "Widget", "Trendyol", "Elektronik", 85, 120, 20, "img", "url",
   "normal", 1, 2⟩

/-- Witness for C5 at the concrete trace `opsW`. -/
theorem current_price_matches_last_history_witness :
    lastHistPrice (runOps opsW DB.empty) pW.id = some pW.current_price :=
  current_price_matches_last_history opsW pW (by decide)

/-! ### C6: history is append-only with non-decreasing timestamps -/

/-- One served call either leaves the history alone or appends exactly
one row, stamped with the call's wall-clock time. -/
theorem stepDB_history_append (op : Op) (db : DB) :
    (stepDB op db).history = db.history ∨
    ∃ e : PriceHistory, e.recorded_at = op.time ∧
      (stepDB op db).history = db.history ++ [e] := by
  cases op with
  | createP data now =>
    exact .inr ⟨⟨db.next_history_id, db.next_product_id, data.current_price, now⟩,
      rfl, rfl⟩
  | updateP product_id data now =>
    dsimp only [stepDB]
    cases hres : admin_update_product product_id data now db with
    | error e => exact .inl rfl
    | ok r =>
      cases hfind : db.products.find? fun p => p.id == product_id with
      | none =>
        unfold admin_update_product at hres
        rw [hfind] at hres
        cases hres
      | some prod =>
        obtain ⟨r2, hr2, _, hhist, _⟩ :=
          admin_update_product_ok_db product_id data now db prod hfind
        rw [hres] at hr2
        cases hr2
        rcases applyPriceStep_cases data product_id now db (applyTitle data prod)
          with ⟨h1, _, _, _⟩ | ⟨P, _, _, h1, _, _⟩
        · exact .inl (by rw [hhist, h1])
        · exact .inr ⟨⟨db.next_history_id, product_id, P, now⟩, rfl,
            by rw [hhist, h1]⟩
  | createA uid data now =>
    dsimp only [stepDB]
    cases hres : create_alert uid data now db with
    | error e => exact .inl rfl
    | ok db2 =>
      exact .inl (create_alert_ok_frame uid data now db db2 hres).2.1
  | deleteA uid aid now =>
    dsimp only [stepDB]
    cases hres : delete_alert uid aid db with
    | error e => exact .inl rfl
    | ok db2 =>
      exact .inl (delete_alert_ok_frame uid aid db db2 hres).2.1

/-- Serving a trace whose call times are non-decreasing and start no
earlier than all recorded timestamps keeps the recorded timestamps
non-decreasing in insertion order. -/
theorem run_history_chain (ops : List Op) (db : DB)
    (hchain : List.Chain' (· ≤ ·) (db.history.map (·.recorded_at)))
    (hbound : ∀ h ∈ db.history, ∀ t ∈ (ops.map Op.time).head?, h.recorded_at ≤ t)
    (hops : List.Chain' (· ≤ ·) (ops.map Op.time)) :
    List.Chain' (· ≤ ·) ((runOps ops db).history.map (·.recorded_at)) := by
  induction ops generalizing db with
  | nil => exact hchain
  | cons op ops ih =>
    have hcons := List.chain'_cons'.1 (by simpa using hops)
    have hstep := stepDB_history_append op db
    show List.Chain' (· ≤ ·) ((runOps ops (stepDB op db)).history.map (·.recorded_at))
    apply ih
    · rcases hstep with heq | ⟨e, het, heq⟩
      · rw [heq]; exact hchain
      · rw [heq, List.map_append, List.chain'_append]
        refine ⟨hchain, List.chain'_singleton _, ?_⟩
        intro x hx y hy
        have hx2 : x ∈ db.history.map (·.recorded_at) :=
          List.mem_of_getLast?_eq_some hx
        rcases List.mem_map.1 hx2 with ⟨h2, hh2, rfl⟩
        have hy2 : e.recorded_at = y := by simpa using hy
        rw [← hy2, het]
        exact hbound h2 hh2 op.time (by simp)
    · intro h hh t ht
      have hbase : ∀ h2 ∈ db.history, h2.recorded_at ≤ t := by
        intro h2 hh2
        exact le_trans (hbound h2 hh2 op.time (by simp)) (hcons.1 t ht)
      rcases hstep with heq | ⟨e, het, heq⟩
      · rw [heq] at hh
        exact hbase h hh
      · rw [heq] at hh
        rcases List.mem_append.1 hh with h2 | h2
        · exact hbase h h2
        · rcases List.mem_singleton.1 h2 with rfl
          rw [het]
          exact hcons.1 t ht
    · exact hcons.2

/-- Claim C6: no operation mutates or deletes an existing history entry
(each call only appends), and for a trace served at non-decreasing
wall-clock times from an empty database, every product's history carries
non-decreasing `recorded_at` timestamps in insertion order. -/
theorem history_append_only_and_monotone :
    (∀ op db, (stepDB op db).history = db.history ∨
      ∃ e, (stepDB op db).history = db.history ++ [e]) ∧
    (∀ ops, List.Chain' (· ≤ ·) (ops.map Op.time) →
      ∀ pid, List.Chain' (· ≤ ·)
        (((runOps ops DB.empty).history.filter
            fun h => h.product_id == pid).map (·.recorded_at))) := by
  constructor
  · intro op db
    rcases stepDB_history_append op db with h | ⟨e, _, h⟩
    · exact .inl h
    · exact .inr ⟨e, h⟩
  · intro ops hops pid
    have hch : List.Chain' (· ≤ ·)
        ((runOps ops DB.empty).history.map (·.recorded_at)) :=
      run_history_chain ops DB.empty (by simp [DB.empty])
        (by intro h hh; cases hh) hops
    exact hch.sublist ((List.filter_sublist _).map _)

/-- Witness for C6: a single update step only appends to `dbW`, and the
concrete monotone trace `opsW` yields a monotone history for product 1. -/
theorem history_append_only_and_monotone_witness :
    ((stepDB (.updateP 1 ⟨none, some 85, none⟩ 5) dbW).history = dbW.history ∨
      ∃ e, (stepDB (.updateP 1 ⟨none, some 85, none⟩ 5) dbW).history =
        dbW.history ++ [e]) ∧
    List.Chain' (· ≤ ·)
      (((runOps opsW DB.empty).history.filter
          fun h => h.product_id == 1).map (·.recorded_at)) :=
  ⟨history_append_only_and_monotone.1 (.updateP 1 ⟨none, some 85, none⟩ 5) dbW,
   history_append_only_and_monotone.2 opsW
     (by show List.Chain' (· ≤ ·) [1, 2, 3]; simp [List.chain'_cons]) 1⟩
